import Mathlib

/-!
Shallow embedding of the core game-loop framework of the Asteroids
repository: the GameHandler clock fields and their per-frame update, the
Game.Main.prototype.frame scene resolution / advancement / render pass,
Game.Scene, Game.Interval, and Game.EffectActor, together with theorems
checking the specification claims about them.

Numbers that are JavaScript doubles holding exact small quantities
(millisecond timestamps, the 1000/60 ideal interval, effect values) are
modelled as Int or ℚ; JavaScript double-tilde truncation is modelled as
truncation toward zero on ℚ.
-/

namespace Game

/-- Ideal frame interval in milliseconds: GameHandler.FPSMS = 1000/60. -/
def FPSMS : ℚ := 1000 / 60

/-- JavaScript double-tilde conversion: truncation toward zero. -/
def jsTrunc (q : ℚ) : Int := if 0 ≤ q then ⌊q⌋ else ⌈q⌉

/-- The GameHandler global clock fields touched by the frame step
(the field name frameMultipler keeps the source spelling). -/
structure Clock where
  frameCount : Int
  frameStart : Int
  frameMultipler : ℚ
  maxfps : Int
deriving DecidableEq

/-- Clock update of Game.Main.prototype.frame (frameCount increment and the
frame-interval / frame-multiplier / maxfps block): the argument frameStart
is the Date.now() value read at the top of the step, c.frameStart is the
stored start of the previous frame.  Only an interval of exactly zero is
replaced by 1; negative intervals pass through unchanged. -/
def updateClock (c : Clock) (frameStart : Int) : Clock :=
  let frameCount := c.frameCount + 1
  let rawInterval : Int := frameStart - c.frameStart
  let frameInterval : Int := if rawInterval = 0 then 1 else rawInterval
  { frameCount := frameCount
    frameStart := frameStart
    frameMultipler := (frameInterval : ℚ) / FPSMS
    maxfps := if frameCount % 16 = 0 then jsTrunc (1000 / (frameInterval : ℚ)) else c.maxfps }

/-- The delay handed to requestAnimFrame at the end of the step:
double-tilde of (FPSMS - (Date.now() - frameStart)), where frameStart is the
time read at the top of the step and now the time at its end. -/
def frameOffset (frameStart now : Int) : Int :=
  jsTrunc (FPSMS - ((now - frameStart : Int) : ℚ))

/-- Game.EffectActor fields used by effectValue (position/vector omitted). -/
structure EffectActor where
  lifespan : ℚ
  effectStart : ℚ
deriving DecidableEq

/-- Game.EffectActor.effectValue: linear fade of val over the lifespan,
clamped below at 0 and above at val; frameStart is the global
GameHandler.frameStart current time. -/
def EffectActor.effectValue (a : EffectActor) (frameStart : ℚ) (val : ℚ) : ℚ :=
  let result := val - val / a.lifespan * (frameStart - a.effectStart)
  if result < 0 then 0
  else if result > val then val
  else result

/-- Game.Interval state fields (the label and the renderer function
reference are omitted: the renderer's behaviour is modelled by
Env.intervalRender below). -/
structure Interval where
  framecounter : Int
  complete : Bool
deriving DecidableEq

/-- Game.Interval.prototype.reset: zero the frame counter and clear the
complete flag. -/
def Interval.reset (_iv : Interval) : Interval :=
  { framecounter := 0, complete := false }

/-- Game.Scene state fields. -/
structure Scene where
  playable : Bool
  interval : Option Interval
deriving DecidableEq

/-- Game.Scene.prototype.onInitScene: reset the interval when present. -/
def Scene.onInitScene (sc : Scene) : Scene :=
  match sc.interval with
  | some iv => { sc with interval := some iv.reset }
  | none => sc

/-- The guard expression
(currentScene.interval === null or currentScene.interval.complete). -/
def Scene.intervalGate (sc : Scene) : Bool :=
  match sc.interval with
  | none => true
  | some iv => iv.complete

/-- Reference to a scene slot owned by the main loop: an index into the
scenes array, or the endScene slot. -/
inductive SceneRef where
  | scene (i : Nat)
  | endRef
deriving DecidableEq

/-- Game.Main mutable fields used by frame (the clock is modelled
separately by Clock/updateClock). -/
structure MainState where
  scenes : List Scene
  endScene : Option Scene
  currentScene : Option SceneRef
  sceneIndex : Int
deriving DecidableEq

/-- Dereference a scene slot; none models an undefined array slot or a
null endScene. -/
def MainState.getScene (s : MainState) : SceneRef → Option Scene
  | .scene i => s.scenes.get? i
  | .endRef => s.endScene

/-- Write back the (mutated) scene object held in a slot. -/
def MainState.setScene (s : MainState) (r : SceneRef) (sc : Scene) : MainState :=
  match r with
  | .scene i => { s with scenes := s.scenes.set i sc }
  | .endRef => { s with endScene := some sc }

/-- The render hooks invoked by the frame step that may raise. -/
inductive Hook where
  | beforeRender
  | renderGame
  | renderScene
  | intervalR
deriving DecidableEq

/-- Per-step behaviour of the overridable methods and external callbacks:
the value isGameOver() returns, the value isComplete() returns for each
scene, the interval renderer's mutation of its interval, and which render
hook (if any) raises an exception during this step. -/
structure Env where
  isGameOver : Bool
  isComplete : SceneRef → Bool
  intervalRender : Interval → Interval
  throwing : Option Hook

/-- Observable events of one frame step, in execution order. -/
inductive Ev where
  | ctxSave
  | ctxRestore
  | onInitScene (r : SceneRef)
  | onBeforeRenderScene (r : SceneRef)
  | onRenderGame
  | onRenderScene (r : SceneRef)
  | intervalRenderer (r : SceneRef)
deriving DecidableEq

/-- Host-level failures: typeError models the TypeError the host raises
when a method is called on an undefined or null scene slot; hookException
models an exception raised inside a render hook.  The code raises no
designed error of its own, so no further constructor exists. -/
inductive JsErr where
  | typeError
  | hookException
deriving DecidableEq

/-- Scene-resolution block of frame (the null-currentScene branch and the
game-over else-if branch).  Returns the mutated state, the local
currentScene variable (none when the dereferenced slot was undefined/null
and the onInitScene call raised a TypeError), and the events emitted.
Field assignments made before the failing dereference are kept, as in the
source. -/
def resolveScene (env : Env) (s : MainState) :
    MainState × Option SceneRef × List Ev :=
  match s.currentScene with
  | none =>
    let s := { s with sceneIndex := 0 }
    match s.scenes.get? 0 with
    | none => (s, none, [])
    | some sc0 =>
      (s.setScene (.scene 0) sc0.onInitScene, some (.scene 0),
       [.onInitScene (.scene 0)])
  | some r =>
    if env.isGameOver then
      let s := { s with sceneIndex := -1 }
      match s.endScene with
      | none => (s, none, [])
      | some esc =>
        (s.setScene .endRef esc.onInitScene, some .endRef,
         [.onInitScene .endRef])
    else (s, some r, [])

/-- Completion-advancement block of frame: when the resolved scene's
interval is null-or-complete and its isComplete() returns true, increment
sceneIndex, wrapping past the end of the scenes array back to 0, and
initialise the newly active scene.  A resulting ref of none models the
TypeError raised by dereferencing an undefined slot (empty scenes array or
a negative index reached by the increment). -/
def advanceScene (env : Env) (s : MainState) (cur : SceneRef) :
    MainState × Option SceneRef × List Ev :=
  match s.getScene cur with
  | none => (s, none, [])
  | some sc =>
    if sc.intervalGate && env.isComplete cur then
      let idx : Int := s.sceneIndex + 1
      if idx < (s.scenes.length : Int) then
        let s2 := { s with sceneIndex := idx }
        if 0 ≤ idx then
          match s2.scenes.get? idx.toNat with
          | none => (s2, none, [])
          | some sc2 =>
            (s2.setScene (.scene idx.toNat) sc2.onInitScene,
             some (.scene idx.toNat), [.onInitScene (.scene idx.toNat)])
        else (s2, none, [])
      else
        let s2 := { s with sceneIndex := 0 }
        match s2.scenes.get? 0 with
        | none => (s2, none, [])
        | some sc0 =>
          (s2.setScene (.scene 0) sc0.onInitScene, some (.scene 0),
           [.onInitScene (.scene 0)])
    else (s, some cur, [])

/-- Render-pass block of frame: ctx.save(), then either the normal path
(onBeforeRenderScene, onRenderGame, onRenderScene) when the scene's
interval is null-or-complete, or the interval path (onRenderGame, then the
interval renderer, whose mutation of the interval is env.intervalRender),
then ctx.restore().  A hook selected by env.throwing raises: execution
stops at that hook and ctx.restore() is not reached — the source brackets
the pass with plain save/restore calls, with no protection against an
abnormal exit.  This definition is the normal path (the then-branch of the
null-or-complete test); renderPass below selects between it and the
interval path. -/
def renderNormal (env : Env) (s : MainState) (cur : SceneRef) :
    MainState × Option JsErr × List Ev :=
  if env.throwing = some .beforeRender then
    (s, some .hookException, [.ctxSave, .onBeforeRenderScene cur])
  else if env.throwing = some .renderGame then
    (s, some .hookException,
     [.ctxSave, .onBeforeRenderScene cur, .onRenderGame])
  else if env.throwing = some .renderScene then
    (s, some .hookException,
     [.ctxSave, .onBeforeRenderScene cur, .onRenderGame, .onRenderScene cur])
  else
    (s, none,
     [.ctxSave, .onBeforeRenderScene cur, .onRenderGame, .onRenderScene cur,
      .ctxRestore])

def renderPass (env : Env) (s : MainState) (cur : SceneRef) :
    MainState × Option JsErr × List Ev :=
  match s.getScene cur with
  | none => (s, some .typeError, [.ctxSave])
  | some sc =>
    match sc.interval with
    | none => renderNormal env s cur
    | some iv =>
      if iv.complete then renderNormal env s cur
      else
        if env.throwing = some .renderGame then
          (s, some .hookException, [.ctxSave, .onRenderGame])
        else if env.throwing = some .intervalR then
          (s, some .hookException, [.ctxSave, .onRenderGame, .intervalRenderer cur])
        else
          (s.setScene cur { sc with interval := some (env.intervalRender iv) },
           none, [.ctxSave, .onRenderGame, .intervalRenderer cur, .ctxRestore])

/-- Result of one frame step: the events emitted, the engine state holding
every mutation made before a possible abort, and the error (if any) that
propagated out of the step. -/
structure FrameResult where
  trace : List Ev
  state : MainState
  error : Option JsErr
deriving DecidableEq

/-- Game.Main.prototype.frame, scene machine and render pass: resolve the
active scene, run the completion-advancement check, perform exactly one
render pass, and (only when the pass completed normally) store the
currentScene reference.  The clock block of the same source function is
modelled by updateClock and frameOffset. -/
def frame (env : Env) (s : MainState) : FrameResult :=
  let (s1, curOpt, t1) := resolveScene env s
  match curOpt with
  | none => { trace := t1, state := s1, error := some .typeError }
  | some cur =>
    let (s2, curOpt2, t2) := advanceScene env s1 cur
    match curOpt2 with
    | none => { trace := t1 ++ t2, state := s2, error := some .typeError }
    | some cur2 =>
      let (s3, err, t3) := renderPass env s2 cur2
      match err with
      | some e => { trace := t1 ++ t2 ++ t3, state := s3, error := some e }
      | none =>
        { trace := t1 ++ t2 ++ t3
          state := { s3 with currentScene := some cur2 }
          error := none }

/-- Iterate frame over a list of per-step environments, threading the
engine state. -/
def runFrames (envs : List Env) (s : MainState) : MainState :=
  match envs with
  | [] => s
  | e :: rest => runFrames rest (frame e s).state

/-- Normal-operation completion condition for one step: no game-over, no
raising hook, the stored currentScene dereferences to a scene whose
interval is null-or-complete and whose isComplete() returns true. -/
def stepGate (env : Env) (s : MainState) : Bool :=
  !env.isGameOver && env.throwing.isNone &&
    (match s.currentScene with
     | some r =>
       match s.getScene r with
       | some sc => sc.intervalGate && env.isComplete r
       | none => false
     | none => false)

/-- Successor of a scene index under cyclic advancement. -/
def nextIdx (N j : Nat) : Nat := if j + 1 < N then j + 1 else 0

/-- Cyclic-run invariant: the engine of an N-scene loop is on scene j. -/
def cycleInv (N j : Nat) (s : MainState) : Prop :=
  s.scenes.length = N ∧ j < N ∧ s.sceneIndex = (j : Int) ∧
    s.currentScene = some (.scene j)

/-- A scene with no interval. -/
def plainScene : Scene := { playable := true, interval := none }

/-- A scene owning a fresh, incomplete interval. -/
def freshIntervalScene : Scene :=
  { playable := true, interval := some { framecounter := 0, complete := false } }

/-- Benign environment: no game-over, every scene reports complete, the
interval renderer leaves its interval unchanged, no hook raises. -/
def envAdvance : Env :=
  { isGameOver := false, isComplete := fun _ => true
    intervalRender := fun iv => iv, throwing := none }

/-- Environment with no game-over and no scene reporting complete. -/
def envIdle : Env :=
  { isGameOver := false, isComplete := fun _ => false
    intervalRender := fun iv => iv, throwing := none }

/-- Game-over environment, every scene reporting complete. -/
def envOver : Env :=
  { isGameOver := true, isComplete := fun _ => true
    intervalRender := fun iv => iv, throwing := none }

/-- Game-over environment whose interval renderer marks its interval
complete and whose scenes never report complete. -/
def envOverMark : Env :=
  { isGameOver := true, isComplete := fun _ => false
    intervalRender := fun iv => { iv with complete := true }, throwing := none }

/-- Environment whose onRenderScene hook raises. -/
def envThrowRender : Env :=
  { isGameOver := false, isComplete := fun _ => false
    intervalRender := fun iv => iv, throwing := some .renderScene }

/-- Environment whose onRenderGame hook raises. -/
def envThrowGame : Env :=
  { isGameOver := false, isComplete := fun _ => false
    intervalRender := fun iv => iv, throwing := some .renderGame }

/-- Two plain scenes, no current scene yet: the very first frame. -/
def firstFrameState : MainState :=
  { scenes := [plainScene, plainScene], endScene := none
    currentScene := none, sceneIndex := -1 }

/-- Running on scene 0 of a single plain scene, with a plain end scene. -/
def runningState : MainState :=
  { scenes := [plainScene], endScene := some plainScene
    currentScene := some (.scene 0), sceneIndex := 0 }

/-- Running on scene 0 of a single plain scene; the end scene owns a fresh
interval. -/
def runningIntervalEnd : MainState :=
  { scenes := [plainScene], endScene := some freshIntervalScene
    currentScene := some (.scene 0), sceneIndex := 0 }

/-- Empty scenes array, before the first frame. -/
def emptyScenesState : MainState :=
  { scenes := [], endScene := none, currentScene := none, sceneIndex := -1 }

/-- Running on scene 0 of a single plain scene with a null endScene. -/
def noEndState : MainState :=
  { scenes := [plainScene], endScene := none
    currentScene := some (.scene 0), sceneIndex := 0 }

/-- Scene 0 owns a fresh interval, scene 1 is plain; loop on scene 0. -/
def renderState : MainState :=
  { scenes := [freshIntervalScene, plainScene], endScene := none
    currentScene := some (.scene 0), sceneIndex := 0 }

/-- Two plain scenes, loop on scene 0: start state for the cyclic witness. -/
def twoSceneState : MainState :=
  { scenes := [plainScene, plainScene], endScene := none
    currentScene := some (.scene 0), sceneIndex := 0 }

/-- Unfolding of the frameMultipler written by updateClock. -/
theorem updateClock_frameMultipler (c : Clock) (now : Int) :
    (updateClock c now).frameMultipler
      = ((if now - c.frameStart = 0 then 1 else now - c.frameStart : Int) : ℚ) / FPSMS := rfl

/-- C1 counterexample: with the previous frameStart at 100 ms and the new
frame starting at 99 ms (clock skew), the observed interval is -1, which is
not clamped, and the stored frame multiplier is negative — the claim says
it equals max(-1,1)/ideal and is strictly positive. -/
theorem updateClock_negative_interval_cex :
    (updateClock { frameCount := 0, frameStart := 100, frameMultipler := 1, maxfps := 0 }
        99).frameMultipler < 0 := by
  rw [updateClock_frameMultipler]
  norm_num [FPSMS]

/-- C1 (amended): for every clock state and every step whose observed
interval (new frame start minus stored frameStart) is nonnegative, the
frame multiplier stored by the step equals max(observedInterval, 1)
divided by the ideal interval 1000/60 ms and is strictly positive; an
interval of exactly zero is replaced by 1 before the division.  (Negative
intervals are not clamped by the code and produce a negative multiplier.) -/
theorem updateClock_frameMultipler_eq_max (c : Clock) (now : Int)
    (h : 0 ≤ now - c.frameStart) :
    (updateClock c now).frameMultipler
      = ((max (now - c.frameStart) 1 : Int) : ℚ) / FPSMS ∧
    0 < (updateClock c now).frameMultipler := by
  have hF : (0 : ℚ) < FPSMS := by norm_num [FPSMS]
  rw [updateClock_frameMultipler]
  rcases eq_or_lt_of_le h with h0 | h1
  · rw [if_pos h0.symm]
    have hmax : max (now - c.frameStart) 1 = 1 := by omega
    rw [hmax]
    exact ⟨rfl, by positivity⟩
  · have hne : ¬ now - c.frameStart = 0 := by omega
    rw [if_neg hne]
    have hmax : max (now - c.frameStart) 1 = now - c.frameStart := by omega
    rw [hmax]
    refine ⟨rfl, div_pos ?_ hF⟩
    exact_mod_cast h1

/-- Witness for the amended C1 theorem at an observed interval of 0. -/
theorem updateClock_frameMultipler_eq_max_witness :
    (updateClock { frameCount := 0, frameStart := 100, frameMultipler := 1, maxfps := 0 }
        100).frameMultipler
      = ((max ((100 : Int) - 100) 1 : Int) : ℚ) / FPSMS ∧
    0 < (updateClock { frameCount := 0, frameStart := 100, frameMultipler := 1, maxfps := 0 }
        100).frameMultipler :=
  updateClock_frameMultipler_eq_max
    { frameCount := 0, frameStart := 100, frameMultipler := 1, maxfps := 0 } 100 (by norm_num)

/-- C7 counterexample: a step that took 30 ms (frame read at 0 ms, finished
at 30 ms) hands the scheduler the delay -13 — the claim says the delay is
never negative. -/
theorem frameOffset_negative_cex : frameOffset 0 30 < 0 := by
  have h : frameOffset 0 30 = -13 := by
    unfold frameOffset jsTrunc
    rw [if_neg (by norm_num [FPSMS])]
    rw [Int.ceil_eq_iff]
    norm_num [FPSMS]
  omega

/-- C7 (amended): the delay handed to the animation scheduler is the
toward-zero truncation of idealFrameInterval minus the step duration:
16 - duration when the step took at most 16 ms, otherwise 17 - duration;
in particular it is negative exactly when the step took 18 ms or more —
the code never clamps it to zero, slow frames pass a negative delay to the
scheduler shim. -/
theorem frameOffset_truncation (fs now : Int) :
    frameOffset fs now
      = (if now - fs ≤ 16 then 16 - (now - fs) else 17 - (now - fs)) ∧
    (frameOffset fs now < 0 ↔ 18 ≤ now - fs) := by
  have hfloor : ⌊FPSMS⌋ = 16 := by
    rw [Int.floor_eq_iff]
    norm_num [FPSMS]
  have hceil : ⌈FPSMS⌉ = 17 := by
    rw [Int.ceil_eq_iff]
    norm_num [FPSMS]
  have key : frameOffset fs now
      = if now - fs ≤ 16 then 16 - (now - fs) else 17 - (now - fs) := by
    unfold frameOffset jsTrunc
    by_cases hle : now - fs ≤ 16
    · have hcast : ((now - fs : Int) : ℚ) ≤ 16 := by exact_mod_cast hle
      have hq : (0 : ℚ) ≤ FPSMS - ((now - fs : Int) : ℚ) := by
        have : FPSMS = 50 / 3 := by norm_num [FPSMS]
        rw [this]; linarith
      rw [if_pos hq, if_pos hle, Int.floor_sub_int, hfloor]
    · have h17 : (17 : Int) ≤ now - fs := by omega
      have hcast : (17 : ℚ) ≤ ((now - fs : Int) : ℚ) := by exact_mod_cast h17
      have hq : ¬ (0 : ℚ) ≤ FPSMS - ((now - fs : Int) : ℚ) := by
        have : FPSMS = 50 / 3 := by norm_num [FPSMS]
        rw [this]; push_neg; linarith
      rw [if_neg hq, if_neg hle, Int.ceil_sub_int, hceil]
  refine ⟨key, ?_⟩
  rw [key]
  split_ifs with h <;> omega

/-- C8 counterexample: a negative value is not returned unchanged at
elapsed 0 — the lower clamp overrides it: with lifespan 100 and elapsed 0,
effectValue(-1) is 0, not the claimed val = -1. -/
theorem effectValue_negative_val_cex :
    EffectActor.effectValue { lifespan := 100, effectStart := 0 } 0 (-1) ≠ -1 := by
  norm_num [EffectActor.effectValue]

/-- C8 (amended): for every EffectActor with strictly positive lifespan,
every nonnegative value val and every current clock time (elapsed may be
negative under clock skew): effectValue returns val at elapsed = 0, returns
0 once elapsed is at least the lifespan, and always lies in [0, val].  (For
negative val the lower clamp of 0 overrides the claimed identity at
elapsed 0.) -/
theorem effectValue_eq (a : EffectActor) (t val : ℚ) :
    a.effectValue t val =
      if val - val / a.lifespan * (t - a.effectStart) < 0 then 0
      else if val - val / a.lifespan * (t - a.effectStart) > val then val
      else val - val / a.lifespan * (t - a.effectStart) := rfl

theorem effectValue_clamped (a : EffectActor) (t val : ℚ)
    (hL : 0 < a.lifespan) (hv : 0 ≤ val) :
    (t - a.effectStart = 0 → a.effectValue t val = val) ∧
    (a.lifespan ≤ t - a.effectStart → a.effectValue t val = 0) ∧
    0 ≤ a.effectValue t val ∧ a.effectValue t val ≤ val := by
  rw [effectValue_eq]
  refine ⟨?_, ?_, ?_⟩
  · intro h0
    rw [h0]
    simp only [mul_zero, sub_zero]
    rw [if_neg (not_lt.mpr hv), if_neg (lt_irrefl val)]
  · intro hLe
    have hmul : val ≤ val / a.lifespan * (t - a.effectStart) := by
      rw [div_mul_eq_mul_div, le_div_iff₀ hL]
      exact mul_le_mul_of_nonneg_left hLe hv
    split_ifs with h1 h2
    · rfl
    · linarith
    · linarith
  · split_ifs with h1 h2
    · exact ⟨le_refl 0, hv⟩
    · exact ⟨hv, le_refl val⟩
    · exact ⟨not_lt.mp h1, not_lt.mp h2⟩

/-- Witness for the amended C8 theorem at lifespan 100, elapsed 0, val 5. -/
theorem effectValue_clamped_witness :
    ((0 : ℚ) - (0 : ℚ) = 0 →
      EffectActor.effectValue { lifespan := 100, effectStart := 0 } 0 5 = 5) ∧
    ((100 : ℚ) ≤ (0 : ℚ) - (0 : ℚ) →
      EffectActor.effectValue { lifespan := 100, effectStart := 0 } 0 5 = 0) ∧
    0 ≤ EffectActor.effectValue { lifespan := 100, effectStart := 0 } 0 5 ∧
    EffectActor.effectValue { lifespan := 100, effectStart := 0 } 0 5 ≤ 5 :=
  effectValue_clamped { lifespan := 100, effectStart := 0 } 0 5 (by norm_num) (by norm_num)

/-- Resolution keeps the stored scene when one exists and no game-over. -/
theorem resolveScene_keep (env : Env) (s : MainState) (r : SceneRef)
    (hcs : s.currentScene = some r) (hgo : env.isGameOver = false) :
    resolveScene env s = (s, some r, []) := by
  simp [resolveScene, hcs, hgo]

/-- Resolution on the first frame activates scene 0. -/
theorem resolveScene_first (env : Env) (s : MainState) (sc0 : Scene)
    (hcs : s.currentScene = none) (hsc : s.scenes.get? 0 = some sc0) :
    resolveScene env s
      = (MainState.setScene { s with sceneIndex := 0 } (.scene 0) sc0.onInitScene,
         some (.scene 0), [.onInitScene (.scene 0)]) := by
  unfold resolveScene
  rw [hcs]
  dsimp only
  rw [hsc]

/-- Resolution on game-over activates the end scene. -/
theorem resolveScene_over (env : Env) (s : MainState) (r : SceneRef) (esc : Scene)
    (hcs : s.currentScene = some r) (hgo : env.isGameOver = true)
    (hesc : s.endScene = some esc) :
    resolveScene env s
      = (MainState.setScene { s with sceneIndex := -1 } .endRef esc.onInitScene,
         some .endRef, [.onInitScene .endRef]) := by
  simp [resolveScene, hcs, hgo, hesc]

/-- The advancement block does nothing when the completion gate fails. -/
theorem advanceScene_stay (env : Env) (s : MainState) (cur : SceneRef) (sc : Scene)
    (hsc : s.getScene cur = some sc)
    (hgate : (sc.intervalGate && env.isComplete cur) = false) :
    advanceScene env s cur = (s, some cur, []) := by
  simp [advanceScene, hsc, hgate]

/-- The advancement block steps to the next scene when the gate holds and
the incremented index is still inside the scenes array. -/
theorem advanceScene_next (env : Env) (s : MainState) (cur : SceneRef)
    (sc sc2 : Scene) (hsc : s.getScene cur = some sc)
    (hgate : (sc.intervalGate && env.isComplete cur) = true)
    (hidx : s.sceneIndex + 1 < (s.scenes.length : Int)) (hnn : 0 ≤ s.sceneIndex + 1)
    (hsc2 : s.scenes.get? (s.sceneIndex + 1).toNat = some sc2) :
    advanceScene env s cur
      = (MainState.setScene { s with sceneIndex := s.sceneIndex + 1 }
           (.scene (s.sceneIndex + 1).toNat) sc2.onInitScene,
         some (.scene (s.sceneIndex + 1).toNat),
         [.onInitScene (.scene (s.sceneIndex + 1).toNat)]) := by
  unfold advanceScene
  rw [hsc]
  dsimp only
  rw [hgate, if_pos rfl, if_pos hidx, if_pos hnn]
  rw [hsc2]

/-- The advancement block wraps to scene 0 when the gate holds and the
incremented index falls past the end of the scenes array. -/
theorem advanceScene_wrap (env : Env) (s : MainState) (cur : SceneRef)
    (sc sc0 : Scene) (hsc : s.getScene cur = some sc)
    (hgate : (sc.intervalGate && env.isComplete cur) = true)
    (hidx : ¬ s.sceneIndex + 1 < (s.scenes.length : Int))
    (hsc0 : s.scenes.get? 0 = some sc0) :
    advanceScene env s cur
      = (MainState.setScene { s with sceneIndex := 0 } (.scene 0) sc0.onInitScene,
         some (.scene 0), [.onInitScene (.scene 0)]) := by
  unfold advanceScene
  rw [hsc]
  dsimp only
  rw [hgate, if_pos rfl, if_neg hidx]
  rw [hsc0]

/-- With no raising hook, the normal path runs all three hooks and
restores the context. -/
theorem renderNormal_no_throw (env : Env) (s : MainState) (cur : SceneRef)
    (hnt : env.throwing = none) :
    renderNormal env s cur
      = (s, none,
         [.ctxSave, .onBeforeRenderScene cur, .onRenderGame, .onRenderScene cur,
          .ctxRestore]) := by
  unfold renderNormal
  rw [hnt]
  simp

/-- Normal render path: interval null-or-complete, no hook raising. -/
theorem renderPass_normal (env : Env) (s : MainState) (cur : SceneRef) (sc : Scene)
    (hsc : s.getScene cur = some sc) (hgate : sc.intervalGate = true)
    (hnt : env.throwing = none) :
    renderPass env s cur
      = (s, none,
         [.ctxSave, .onBeforeRenderScene cur, .onRenderGame, .onRenderScene cur,
          .ctxRestore]) := by
  unfold renderPass
  rw [hsc]
  dsimp only
  rcases hiv : sc.interval with _ | iv
  · exact renderNormal_no_throw env s cur hnt
  · have hc : iv.complete = true := by
      have h := hgate
      unfold Scene.intervalGate at h
      rw [hiv] at h
      exact h
    dsimp only
    rw [hc, if_pos rfl]
    exact renderNormal_no_throw env s cur hnt

/-- Interval render path: a present, incomplete interval, no hook raising;
the interval renderer's mutation is written back to the scene slot. -/
theorem renderPass_interval (env : Env) (s : MainState) (cur : SceneRef)
    (sc : Scene) (iv : Interval) (hsc : s.getScene cur = some sc)
    (hiv : sc.interval = some iv) (hc : iv.complete = false)
    (hnt : env.throwing = none) :
    renderPass env s cur
      = (s.setScene cur { sc with interval := some (env.intervalRender iv) }, none,
         [.ctxSave, .onRenderGame, .intervalRenderer cur, .ctxRestore]) := by
  unfold renderPass
  rw [hsc]
  dsimp only
  rw [hiv]
  dsimp only
  rw [hc, if_neg (by simp), hnt]
  simp

/-- The render pass never touches sceneIndex, currentScene, or the number
of scenes. -/
theorem renderPass_preserves (env : Env) (s : MainState) (cur : SceneRef) :
    (renderPass env s cur).1.sceneIndex = s.sceneIndex ∧
    (renderPass env s cur).1.scenes.length = s.scenes.length ∧
    (renderPass env s cur).1.currentScene = s.currentScene := by
  unfold renderPass
  rcases hsc : s.getScene cur with _ | sc
  · exact ⟨rfl, rfl, rfl⟩
  · dsimp only
    rcases hiv : sc.interval with _ | iv
    · unfold renderNormal
      split_ifs <;> exact ⟨rfl, rfl, rfl⟩
    · dsimp only
      rcases hc : iv.complete with _ | _
      · rw [if_neg (by simp)]
        split_ifs
        · exact ⟨rfl, rfl, rfl⟩
        · exact ⟨rfl, rfl, rfl⟩
        · cases cur <;> simp [MainState.setScene]
      · rw [if_pos rfl]
        unfold renderNormal
        split_ifs <;> exact ⟨rfl, rfl, rfl⟩

/-- With no raising hook and a dereferenceable scene, the render pass
finishes without error. -/
theorem renderPass_ok (env : Env) (s : MainState) (cur : SceneRef) (sc : Scene)
    (hsc : s.getScene cur = some sc) (hnt : env.throwing = none) :
    (renderPass env s cur).2.1 = none := by
  rcases hiv : sc.interval with _ | iv
  · rw [renderPass_normal env s cur sc hsc (by unfold Scene.intervalGate; rw [hiv]) hnt]
  · rcases hc : iv.complete with _ | _
    · rw [renderPass_interval env s cur sc iv hsc hiv hc hnt]
    · rw [renderPass_normal env s cur sc hsc (by unfold Scene.intervalGate; rw [hiv]; exact hc) hnt]

/-- C3: on every frame the two render paths are mutually exclusive: a
scene holding a present interval whose complete flag is false renders via
the interval renderer only (neither onBeforeRenderScene nor onRenderScene
is invoked); a scene whose interval is null or complete renders via the
normal path only (the interval renderer is not invoked). -/
theorem renderPass_exclusive (env : Env) (s : MainState) (cur : SceneRef)
    (sc : Scene) (hsc : s.getScene cur = some sc) (hnt : env.throwing = none) :
    (∀ iv, sc.interval = some iv → iv.complete = false →
      (renderPass env s cur).2.2
        = [.ctxSave, .onRenderGame, .intervalRenderer cur, .ctxRestore]) ∧
    (sc.intervalGate = true →
      (renderPass env s cur).2.2
        = [.ctxSave, .onBeforeRenderScene cur, .onRenderGame, .onRenderScene cur,
           .ctxRestore]) := by
  constructor
  · intro iv hiv hc
    rw [renderPass_interval env s cur sc iv hsc hiv hc hnt]
  · intro hgate
    rw [renderPass_normal env s cur sc hsc hgate hnt]

/-- Witness for C3: the interval path on a fresh interval, the normal path
on a plain scene. -/
theorem renderPass_exclusive_witness :
    (renderPass envIdle renderState (.scene 0)).2.2
      = [.ctxSave, .onRenderGame, .intervalRenderer (.scene 0), .ctxRestore] ∧
    (renderPass envIdle renderState (.scene 1)).2.2
      = [.ctxSave, .onBeforeRenderScene (.scene 1), .onRenderGame,
         .onRenderScene (.scene 1), .ctxRestore] :=
  ⟨(renderPass_exclusive envIdle renderState (.scene 0) freshIntervalScene rfl
      rfl).1 { framecounter := 0, complete := false } rfl rfl,
   (renderPass_exclusive envIdle renderState (.scene 1) plainScene rfl rfl).2 rfl⟩

/-- Composition of one successful frame step from the results of its three
blocks. -/
theorem frame_parts (env : Env) (s s1 : MainState) (cur : SceneRef) (t1 : List Ev)
    (s2 : MainState) (cur2 : SceneRef) (t2 : List Ev) (s3 : MainState) (t3 : List Ev)
    (h1 : resolveScene env s = (s1, some cur, t1))
    (h2 : advanceScene env s1 cur = (s2, some cur2, t2))
    (h3 : renderPass env s2 cur2 = (s3, none, t3)) :
    frame env s
      = { trace := t1 ++ t2 ++ t3
          state := { s3 with currentScene := some cur2 }
          error := none } := by
  unfold frame
  rw [h1]
  dsimp only
  rw [h2]
  dsimp only
  rw [h3]

/-- A failing resolution aborts the step with a TypeError. -/
theorem frame_resolve_fail (env : Env) (s s1 : MainState) (t1 : List Ev)
    (h1 : resolveScene env s = (s1, none, t1)) :
    frame env s = { trace := t1, state := s1, error := some .typeError } := by
  unfold frame
  rw [h1]

/-- C2 (amended): scene resolution takes at most one branch per step: on
the first frame (currentScene null) it activates scene 0 and never the end
scene, independently of isGameOver; when a current scene exists and there
is no game-over it keeps the active scene, index and trace unchanged.  The
completion-based advancement is a separate, subsequent check that may also
fire within the same step (the counterexample shows it advancing to
scenes[1] on the very first frame). -/
theorem resolve_branches_exclusive (env : Env) (s : MainState) :
    (s.currentScene = none →
      (resolveScene env s).2.1 ≠ some .endRef ∧
      resolveScene env s = resolveScene { env with isGameOver := true } s ∧
      resolveScene env s = resolveScene { env with isGameOver := false } s) ∧
    (∀ r, s.currentScene = some r → env.isGameOver = false →
      resolveScene env s = (s, some r, [])) := by
  constructor
  · intro hcs
    have hres : ∀ e : Env, resolveScene e s = resolveScene env s := by
      intro e
      unfold resolveScene
      rw [hcs]
    refine ⟨?_, (hres _).symm, (hres _).symm⟩
    unfold resolveScene
    rw [hcs]
    dsimp only
    rcases h0 : s.scenes.get? 0 with _ | sc0
    · simp
    · simp
  · intro r hcs hgo
    exact resolveScene_keep env s r hcs hgo

/-- Witness for the amended C2 theorem: the first-frame branch on a
two-scene state, and the keep branch on a running state. -/
theorem resolve_branches_exclusive_witness :
    ((resolveScene envAdvance firstFrameState).2.1 ≠ some .endRef ∧
      resolveScene envAdvance firstFrameState
        = resolveScene { envAdvance with isGameOver := true } firstFrameState ∧
      resolveScene envAdvance firstFrameState
        = resolveScene { envAdvance with isGameOver := false } firstFrameState) ∧
    resolveScene envAdvance twoSceneState = (twoSceneState, some (.scene 0), []) :=
  ⟨(resolve_branches_exclusive envAdvance firstFrameState).1 rfl,
   (resolve_branches_exclusive envAdvance twoSceneState).2 (.scene 0) rfl rfl⟩

/-- C2 counterexample: on the very first frame (currentScene null) with
scenes[0] reporting isComplete() true and no interval, the step does not
stop at scene 0: the separate advancement check fires in the same step,
initialising both scenes and ending on sceneIndex 1 — the claim says no
advancement to scenes[1] happens within that step. -/
theorem frame_first_step_advances_cex :
    (frame envAdvance firstFrameState).state.sceneIndex = 1 ∧
    (frame envAdvance firstFrameState).state.currentScene = some (.scene 1) ∧
    Ev.onInitScene (.scene 0) ∈ (frame envAdvance firstFrameState).trace ∧
    Ev.onInitScene (.scene 1) ∈ (frame envAdvance firstFrameState).trace := by
  decide

/-- C6 (amended): when a render hook that the pass executes raises (here
the game-level render hook, which both paths invoke), the pass ends with
the hook exception propagating, the context saved — and never restored:
the save/restore bracket is not exception-safe, so the render surface is
left with the saved state unpopped. -/
theorem render_exception_no_restore (env : Env) (s : MainState) (cur : SceneRef)
    (sc : Scene) (hsc : s.getScene cur = some sc)
    (hthrow : env.throwing = some .renderGame) :
    (renderPass env s cur).2.1 = some .hookException ∧
    Ev.ctxSave ∈ (renderPass env s cur).2.2 ∧
    Ev.ctxRestore ∉ (renderPass env s cur).2.2 := by
  unfold renderPass
  rw [hsc]
  dsimp only
  rcases hiv : sc.interval with _ | iv
  · unfold renderNormal
    rw [hthrow]
    simp
  · dsimp only
    rcases hc : iv.complete with _ | _
    · rw [if_neg (by simp), if_pos hthrow]
      simp
    · rw [if_pos rfl]
      unfold renderNormal
      rw [hthrow]
      simp

/-- Witness for the amended C6 theorem on a plain scene. -/
theorem render_exception_no_restore_witness :
    (renderPass envThrowGame noEndState (.scene 0)).2.1 = some .hookException ∧
    Ev.ctxSave ∈ (renderPass envThrowGame noEndState (.scene 0)).2.2 ∧
    Ev.ctxRestore ∉ (renderPass envThrowGame noEndState (.scene 0)).2.2 :=
  render_exception_no_restore envThrowGame noEndState (.scene 0) plainScene rfl rfl

/-- C6 counterexample: a step whose onRenderScene hook raises propagates
the exception with ctx.save() emitted but no ctx.restore() — the claim
says the closing restore still executes before the error propagates. -/
theorem render_exception_skips_restore_cex :
    (frame envThrowRender noEndState).error = some .hookException ∧
    Ev.ctxSave ∈ (frame envThrowRender noEndState).trace ∧
    Ev.ctxRestore ∉ (frame envThrowRender noEndState).trace := by
  decide

/-- C9 (amended): a first frame on an empty scenes array, and a game-over
transition with a null endScene, both abort the step with the host-level
TypeError raised by calling onInitScene on the missing slot — the code
performs no configuration check and raises no descriptive error of its
own; it dereferences the missing scene slot directly. -/
theorem missing_scene_typeError (env : Env) (s : MainState) :
    (s.currentScene = none → s.scenes = [] →
      (frame env s).error = some .typeError ∧ (frame env s).trace = []) ∧
    (∀ r, s.currentScene = some r → env.isGameOver = true → s.endScene = none →
      (frame env s).error = some .typeError ∧ (frame env s).trace = []) := by
  constructor
  · intro hcs hempty
    have h1 : resolveScene env s = ({ s with sceneIndex := 0 }, none, []) := by
      unfold resolveScene
      rw [hcs]
      dsimp only
      rw [hempty]
      rfl
    rw [frame_resolve_fail env s _ _ h1]
    exact ⟨rfl, rfl⟩
  · intro r hcs hgo hend
    have h1 : resolveScene env s = ({ s with sceneIndex := -1 }, none, []) := by
      unfold resolveScene
      rw [hcs]
      dsimp only
      rw [hgo, if_pos rfl]
      rw [hend]
    rw [frame_resolve_fail env s _ _ h1]
    exact ⟨rfl, rfl⟩

/-- Witness for the amended C9 theorem: both failure shapes at concrete
states. -/
theorem missing_scene_typeError_witness :
    ((frame envAdvance emptyScenesState).error = some .typeError ∧
      (frame envAdvance emptyScenesState).trace = []) ∧
    ((frame envOver noEndState).error = some .typeError ∧
      (frame envOver noEndState).trace = []) :=
  ⟨(missing_scene_typeError envAdvance emptyScenesState).1 rfl rfl,
   (missing_scene_typeError envOver noEndState).2 (.scene 0) rfl rfl rfl⟩

/-- C9 counterexample: starting the loop with no scenes does not fail fast
with a descriptive configuration error: the first step dereferences the
undefined scenes[0] slot and dies with the host TypeError. -/
theorem empty_scenes_typeError_cex :
    (frame envAdvance emptyScenesState).error = some .typeError := by
  decide

/-- Re-initialising a scene that owns an interval always leaves the
null-or-complete gate false: the reset clears the complete flag. -/
theorem intervalGate_onInitScene (sc : Scene) (iv : Interval)
    (hiv : sc.interval = some iv) : sc.onInitScene.intervalGate = false := by
  unfold Scene.onInitScene
  rw [hiv]
  rfl

/-- Re-initialising a scene that owns an interval resets that interval to
counter 0, complete false. -/
theorem onInitScene_reset (sc : Scene) (iv : Interval)
    (hiv : sc.interval = some iv) :
    sc.onInitScene
      = { sc with interval := some { framecounter := 0, complete := false } } := by
  unfold Scene.onInitScene
  rw [hiv]
  rfl

/-- C5 (amended): whenever a current scene exists and isGameOver() returns
true, the step sets sceneIndex to -1 and activates endScene, calling its
onInitScene(), regardless of the previous scene's interval or completion
state; and provided endScene does not itself pass the completion gate in
the same step (it owns an interval — freshly reset, hence incomplete — or
its own isComplete() returns false), the step ends with sceneIndex = -1
and endScene current.  (If endScene has no interval and its isComplete()
returns true, the separate advancement check fires in the same step and
the step instead ends on scenes[0] with sceneIndex 0, as the
counterexample shows.) -/
theorem gameOver_transition (env : Env) (s : MainState) (r : SceneRef) (esc : Scene)
    (hcs : s.currentScene = some r) (hgo : env.isGameOver = true)
    (hesc : s.endScene = some esc) (hnt : env.throwing = none)
    (hng : esc.interval ≠ none ∨ env.isComplete .endRef = false) :
    (frame env s).error = none ∧
    Ev.onInitScene .endRef ∈ (frame env s).trace ∧
    (frame env s).state.sceneIndex = -1 ∧
    (frame env s).state.currentScene = some .endRef := by
  have h1 := resolveScene_over env s r esc hcs hgo hesc
  set s1 := MainState.setScene { s with sceneIndex := -1 } .endRef esc.onInitScene
    with hs1
  have hget : s1.getScene .endRef = some esc.onInitScene := rfl
  have hgate : (esc.onInitScene.intervalGate && env.isComplete .endRef) = false := by
    rcases hng with hne | hic
    · obtain ⟨iv, hiv⟩ := Option.ne_none_iff_exists'.mp hne
      rw [intervalGate_onInitScene esc iv hiv]
      rfl
    · rw [hic, Bool.and_false]
  have h2 := advanceScene_stay env s1 .endRef esc.onInitScene hget hgate
  rcases hrp : renderPass env s1 .endRef with ⟨s3, err, t3⟩
  have herr : err = none := by
    have h := renderPass_ok env s1 .endRef esc.onInitScene hget hnt
    rw [hrp] at h
    exact h
  rw [herr] at hrp
  have hfr := frame_parts env s s1 .endRef [.onInitScene .endRef] s1 .endRef [] s3 t3
    h1 h2 hrp
  have hpres := renderPass_preserves env s1 .endRef
  rw [hrp] at hpres
  rw [hfr]
  refine ⟨rfl, by simp, ?_, rfl⟩
  show s3.sceneIndex = -1
  rw [hpres.1]
  rfl

/-- Witness for the amended C5 theorem: game-over with an interval-owning
end scene ends the step on the end scene with sceneIndex -1. -/
theorem gameOver_transition_witness :
    (frame envOver runningIntervalEnd).error = none ∧
    Ev.onInitScene .endRef ∈ (frame envOver runningIntervalEnd).trace ∧
    (frame envOver runningIntervalEnd).state.sceneIndex = -1 ∧
    (frame envOver runningIntervalEnd).state.currentScene = some .endRef :=
  gameOver_transition envOver runningIntervalEnd (.scene 0) freshIntervalScene
    rfl rfl rfl rfl (Or.inl (by decide))

/-- C5 counterexample: when the end scene has no interval and its
isComplete() returns true, the game-over step does not end on the end
scene: the advancement check fires in the same step and the step ends with
sceneIndex 0 and scenes[0] current — the claim says sceneIndex is -1 with
endScene current at the end of every such step. -/
theorem gameOver_endScene_complete_cex :
    (frame envOver runningState).state.sceneIndex = 0 ∧
    (frame envOver runningState).state.currentScene = some (.scene 0) := by
  decide

/-- C10: while isGameOver() stays true across consecutive steps with a
current scene present, the game-over branch re-executes every step,
invoking endScene.onInitScene() each frame; hence an interval owned by the
end scene is reset (counter 0, complete false) at the resolution of every
such step — even if the interval renderer marked it complete during the
previous step, so the complete flag never survives into the next step's
scene resolution. -/
theorem gameOver_reinit_interval (env1 env2 : Env) (s : MainState) (r : SceneRef)
    (esc : Scene) (iv : Interval)
    (hcs : s.currentScene = some r) (hesc : s.endScene = some esc)
    (hiv : esc.interval = some iv)
    (hgo1 : env1.isGameOver = true) (hgo2 : env2.isGameOver = true)
    (hnt1 : env1.throwing = none) (hnt2 : env2.throwing = none) :
    (frame env1 s).error = none ∧
    Ev.onInitScene .endRef ∈ (frame env1 s).trace ∧
    (frame env1 s).state.currentScene = some .endRef ∧
    Ev.onInitScene .endRef ∈ (frame env2 (frame env1 s).state).trace ∧
    (resolveScene env2 (frame env1 s).state).1.endScene
      = some { esc with interval := some { framecounter := 0, complete := false } } := by
  have h1 := resolveScene_over env1 s r esc hcs hgo1 hesc
  rw [onInitScene_reset esc iv hiv] at h1
  set escR : Scene := { esc with interval := some { framecounter := 0, complete := false } }
    with hescR
  set s1 := MainState.setScene { s with sceneIndex := -1 } .endRef escR with hs1
  have hget : s1.getScene .endRef = some escR := rfl
  have hgate : (escR.intervalGate && env1.isComplete .endRef) = false := rfl
  have h2 := advanceScene_stay env1 s1 .endRef escR hget hgate
  have h3 := renderPass_interval env1 s1 .endRef escR
    { framecounter := 0, complete := false } hget rfl rfl hnt1
  have hfr := frame_parts env1 s s1 .endRef [.onInitScene .endRef] s1 .endRef []
    (s1.setScene .endRef
      { escR with
          interval := some (env1.intervalRender { framecounter := 0, complete := false }) })
    [.ctxSave, .onRenderGame, .intervalRenderer .endRef, .ctxRestore] h1 h2 h3
  rw [hfr]
  set esc2 : Scene :=
    { escR with
        interval := some (env1.intervalRender { framecounter := 0, complete := false }) }
    with hesc2def
  set sF : MainState := { s1.setScene .endRef esc2 with currentScene := some SceneRef.endRef }
    with hsF
  have hcs2 : sF.currentScene = some SceneRef.endRef := rfl
  have hesc2 : sF.endScene = some esc2 := rfl
  have h1b := resolveScene_over env2 sF .endRef esc2 hcs2 hgo2 hesc2
  have hinitb : esc2.onInitScene
      = { esc2 with interval := some { framecounter := 0, complete := false } } :=
    onInitScene_reset esc2 _ rfl
  rw [hinitb] at h1b
  set escR2 : Scene := { esc2 with interval := some { framecounter := 0, complete := false } }
    with hescR2
  set s1b := MainState.setScene { sF with sceneIndex := -1 } .endRef escR2 with hs1b
  have hgetb : s1b.getScene .endRef = some escR2 := rfl
  have hgateb : (escR2.intervalGate && env2.isComplete .endRef) = false := rfl
  have h2b := advanceScene_stay env2 s1b .endRef escR2 hgetb hgateb
  have h3b := renderPass_interval env2 s1b .endRef escR2
    { framecounter := 0, complete := false } hgetb rfl rfl hnt2
  have hfrb := frame_parts env2 sF s1b .endRef [.onInitScene .endRef] s1b .endRef []
    (s1b.setScene .endRef
      { escR2 with
          interval := some (env2.intervalRender { framecounter := 0, complete := false }) })
    [.ctxSave, .onRenderGame, .intervalRenderer .endRef, .ctxRestore] h1b h2b h3b
  refine ⟨rfl, by simp, rfl, ?_, ?_⟩
  · rw [hfrb]
    simp
  · rw [h1b]
    rfl

/-- Witness for the C10 theorem with an interval renderer that marks the
end-scene interval complete during each step: the reset still clears it at
the next resolution. -/
theorem gameOver_reinit_interval_witness :
    (frame envOverMark runningIntervalEnd).error = none ∧
    Ev.onInitScene .endRef ∈ (frame envOverMark runningIntervalEnd).trace ∧
    (frame envOverMark runningIntervalEnd).state.currentScene = some .endRef ∧
    Ev.onInitScene .endRef
      ∈ (frame envOverMark (frame envOverMark runningIntervalEnd).state).trace ∧
    (resolveScene envOverMark (frame envOverMark runningIntervalEnd).state).1.endScene
      = some { freshIntervalScene with
          interval := some { framecounter := 0, complete := false } } :=
  gameOver_reinit_interval envOverMark envOverMark runningIntervalEnd (.scene 0)
    freshIntervalScene { framecounter := 0, complete := false }
    rfl rfl rfl rfl rfl rfl rfl

/-- One step taken under the completion gate (no game-over, no raising
hook, active scene dereferenceable with interval null-or-complete and
isComplete() true) advances the cyclic invariant by one scene, wrapping
at the end of the scenes array. -/
theorem frame_cycle_step (env : Env) (s : MainState) (N j : Nat)
    (hInv : cycleInv N j s) (hg : stepGate env s = true) :
    cycleInv N (nextIdx N j) (frame env s).state := by
  obtain ⟨hlen, hjN, hsi, hcs⟩ := hInv
  unfold stepGate at hg
  rw [hcs] at hg
  dsimp only at hg
  obtain ⟨sc, hsc⟩ : ∃ sc, s.scenes.get? j = some sc := by
    rw [List.get?_eq_getElem?, List.getElem?_eq_getElem (by rw [hlen]; exact hjN)]
    exact ⟨_, rfl⟩
  have hscget : s.getScene (.scene j) = some sc := hsc
  rw [hscget] at hg
  dsimp only at hg
  simp only [Bool.and_eq_true] at hg
  obtain ⟨⟨hgo', hthrow'⟩, hgatePair⟩ := hg
  have hgate : (sc.intervalGate && env.isComplete (SceneRef.scene j)) = true := by
    rw [Bool.and_eq_true]
    exact hgatePair
  have hgo : env.isGameOver = false := by simpa using hgo'
  have hnt : env.throwing = none := Option.isNone_iff_eq_none.mp hthrow'
  have h1 := resolveScene_keep env s (.scene j) hcs hgo
  by_cases hlt : j + 1 < N
  · have hidx : s.sceneIndex + 1 < (s.scenes.length : Int) := by
      rw [hsi, hlen]; omega
    have hnn : 0 ≤ s.sceneIndex + 1 := by rw [hsi]; omega
    have htoNat : (s.sceneIndex + 1).toNat = j + 1 := by rw [hsi]; omega
    obtain ⟨sc2, hsc2⟩ : ∃ sc2, s.scenes.get? (j + 1) = some sc2 := by
      rw [List.get?_eq_getElem?, List.getElem?_eq_getElem (by rw [hlen]; exact hlt)]
      exact ⟨_, rfl⟩
    have hsc2t : s.scenes.get? (s.sceneIndex + 1).toNat = some sc2 := by
      rw [htoNat]; exact hsc2
    have h2 := advanceScene_next env s (.scene j) sc sc2 hscget hgate hidx hnn hsc2t
    rw [htoNat] at h2
    set s2 := MainState.setScene { s with sceneIndex := s.sceneIndex + 1 }
      (.scene (j + 1)) sc2.onInitScene with hs2
    have hget2 : s2.getScene (.scene (j + 1)) = some sc2.onInitScene := by
      show (s.scenes.set (j + 1) sc2.onInitScene).get? (j + 1) = some sc2.onInitScene
      rw [List.get?_eq_getElem?]
      exact List.getElem?_set_eq_of_lt _ (by rw [hlen]; exact hlt)
    rcases hrp : renderPass env s2 (.scene (j + 1)) with ⟨s3, err, t3⟩
    have herr : err = none := by
      have h := renderPass_ok env s2 (.scene (j + 1)) sc2.onInitScene hget2 hnt
      rw [hrp] at h
      exact h
    rw [herr] at hrp
    have hfr := frame_parts env s s (.scene j) [] s2 (.scene (j + 1))
      [.onInitScene (.scene (j + 1))] s3 t3 h1 h2 hrp
    have hpres := renderPass_preserves env s2 (.scene (j + 1))
    rw [hrp] at hpres
    rw [hfr]
    unfold cycleInv nextIdx
    rw [if_pos hlt]
    refine ⟨?_, hlt, ?_, rfl⟩
    · show s3.scenes.length = N
      rw [hpres.2.1]
      show (s.scenes.set (j + 1) sc2.onInitScene).length = N
      rw [List.length_set]
      exact hlen
    · show s3.sceneIndex = ((j + 1 : Nat) : Int)
      rw [hpres.1]
      show s.sceneIndex + 1 = ((j + 1 : Nat) : Int)
      rw [hsi]
      omega
  · have hidx : ¬ s.sceneIndex + 1 < (s.scenes.length : Int) := by
      rw [hsi, hlen]; omega
    obtain ⟨sc0, hsc0⟩ : ∃ sc0, s.scenes.get? 0 = some sc0 := by
      rw [List.get?_eq_getElem?, List.getElem?_eq_getElem (by rw [hlen]; omega)]
      exact ⟨_, rfl⟩
    have h2 := advanceScene_wrap env s (.scene j) sc sc0 hscget hgate hidx hsc0
    set s2 := MainState.setScene { s with sceneIndex := 0 } (.scene 0) sc0.onInitScene
      with hs2
    have hget2 : s2.getScene (.scene 0) = some sc0.onInitScene := by
      show (s.scenes.set 0 sc0.onInitScene).get? 0 = some sc0.onInitScene
      rw [List.get?_eq_getElem?]
      exact List.getElem?_set_eq_of_lt _ (by rw [hlen]; omega)
    rcases hrp : renderPass env s2 (.scene 0) with ⟨s3, err, t3⟩
    have herr : err = none := by
      have h := renderPass_ok env s2 (.scene 0) sc0.onInitScene hget2 hnt
      rw [hrp] at h
      exact h
    rw [herr] at hrp
    have hfr := frame_parts env s s (.scene j) [] s2 (.scene 0)
      [.onInitScene (.scene 0)] s3 t3 h1 h2 hrp
    have hpres := renderPass_preserves env s2 (.scene 0)
    rw [hrp] at hpres
    rw [hfr]
    unfold cycleInv nextIdx
    rw [if_neg hlt]
    refine ⟨?_, by omega, ?_, rfl⟩
    · show s3.scenes.length = N
      rw [hpres.2.1]
      show (s.scenes.set 0 sc0.onInitScene).length = N
      rw [List.length_set]
      exact hlen
    · show s3.sceneIndex = ((0 : Nat) : Int)
      rw [hpres.1]
      rfl

/-- Iterating frame under per-step completion gates follows the cyclic
index successor. -/
theorem runFrames_cycle (envs : List Env) : ∀ (s : MainState) (N j : Nat),
    cycleInv N j s →
    (∀ t (ht : t < envs.length),
      stepGate (envs.get ⟨t, ht⟩) (runFrames (envs.take t) s) = true) →
    cycleInv N (Nat.iterate (nextIdx N) envs.length j) (runFrames envs s) := by
  induction envs with
  | nil =>
    intro s N j hInv _
    exact hInv
  | cons e rest ih =>
    intro s N j hInv hg
    have hg0 : stepGate e s = true := by
      have h := hg 0 (by simp)
      simpa using h
    have hInv1 := frame_cycle_step e s N j hInv hg0
    have hrest : ∀ t (ht : t < rest.length),
        stepGate (rest.get ⟨t, ht⟩)
          (runFrames (rest.take t) (frame e s).state) = true := by
      intro t ht
      have h := hg (t + 1) (by simpa using Nat.succ_lt_succ ht)
      simpa [runFrames] using h
    have hres := ih (frame e s).state N (nextIdx N j) hInv1 hrest
    rw [show (e :: rest).length = rest.length + 1 from rfl,
      Function.iterate_succ_apply]
    exact hres

/-- Iterating the cyclic successor from scene j for the remaining N - j
scenes lands on scene 0. -/
theorem nextIdx_iterate (N : Nat) : ∀ (t j : Nat), j < N → t + j = N →
    Nat.iterate (nextIdx N) t j = 0 := by
  intro t
  induction t with
  | zero =>
    intro j hj ht
    exact (by omega : False).elim
  | succ t ih =>
    intro j hj ht
    rw [Function.iterate_succ_apply]
    by_cases hlt : j + 1 < N
    · exact ih (nextIdx N j) (by unfold nextIdx; rw [if_pos hlt]; exact hlt)
        (by unfold nextIdx; rw [if_pos hlt]; omega)
    · have ht0 : t = 0 := by omega
      subst ht0
      unfold nextIdx
      rw [if_neg hlt]
      rfl

/-- C4: a loop of N scenes (N at least 1) running on scene 0, with
isGameOver() false in every step and, in each of N consecutive completed
steps, the active scene passing the completion gate (interval null or
complete, isComplete() true), returns to sceneIndex 0 after those N
steps — advancing past the last scene is not an error but wraps to
scenes[0]. -/
theorem cyclic_advancement (envs : List Env) (s : MainState)
    (hN : 1 ≤ s.scenes.length)
    (hsi : s.sceneIndex = 0) (hcs : s.currentScene = some (.scene 0))
    (hlenv : envs.length = s.scenes.length)
    (hg : ∀ t (ht : t < envs.length),
      stepGate (envs.get ⟨t, ht⟩) (runFrames (envs.take t) s) = true) :
    (runFrames envs s).sceneIndex = 0 ∧
    (runFrames envs s).currentScene = some (.scene 0) := by
  have hInv : cycleInv s.scenes.length 0 s := by
    refine ⟨rfl, hN, ?_, hcs⟩
    rw [hsi]
    rfl
  have hrun := runFrames_cycle envs s s.scenes.length 0 hInv hg
  have hzero : Nat.iterate (nextIdx s.scenes.length) envs.length 0 = 0 :=
    nextIdx_iterate s.scenes.length envs.length 0 hN (by omega)
  rw [hzero] at hrun
  exact ⟨hrun.2.2.1, hrun.2.2.2⟩

/-- Witness for the C4 theorem: two plain scenes, two completing steps,
back to scene 0. -/
theorem cyclic_advancement_witness :
    (runFrames [envAdvance, envAdvance] twoSceneState).sceneIndex = 0 ∧
    (runFrames [envAdvance, envAdvance] twoSceneState).currentScene
      = some (.scene 0) :=
  cyclic_advancement [envAdvance, envAdvance] twoSceneState (by decide) rfl rfl rfl
    (by decide)

end Game
